import Mathlib

/-!
# logs-anonymizer: the batch anonymization pipeline of `main.go`

A shallow embedding of the data model and of the two dispatch strategies
(`NewSipLogEntryResponse1`, sequential, and `NewSipLogEntryResponse2`,
fan-out/fan-in over a channel and an index map), followed by the theorems
about them.

Modelling conventions.

* A Go `string` and a Go `[]byte` are finite byte sequences; the conversions
  `[]byte(s)` and `string(b)` copy the bytes, so both are the identity here.
* A Go pointer result is an `Option` (`none` is `nil`).
* `sipanonymizer.ProcessMessage` is an external library: it is a parameter
  (`Redactor`). One call yields the returned slice and the contents of the
  caller's buffer after the call, since the callee shares the backing array
  of the slice it is given. The call is assumed to return.
* In `NewSipLogEntryResponse2` every goroutine is given `&entry`, the address
  of the variable of the `range` loop. Before Go 1.22 that is one variable,
  assigned anew by every iteration, so a goroutine finds behind the pointer
  the entry of its own iteration or of a later one, depending on when it
  runs. The parameter `lag` says, for each goroutine, how many later
  iterations have assigned the variable when the goroutine reads it (`0`
  everywhere is the behaviour of Go 1.22 and later, where every iteration
  has its own variable). A goroutine reads the variable at one moment.
* The order in which the results arrive on the channel is a parameter
  (`arrival`).
-/

namespace LogsAnonymizer

/-! ## Data model -/

/-- Go `byte`. -/
abbrev Byte := Fin 256

/-- The contents of a Go `string` or `[]byte`. -/
abbrev GoString := List Byte

/-- Bytes of a string literal made of ASCII characters. -/
def ascii (s : String) : GoString :=
  s.toList.map (fun c => Fin.ofNat c.toNat)

/-- The literal `"sip"` that `entry.«Type»` is compared with. -/
def sipTag : GoString := ascii "sip"

/-- Go struct `LogEntryParticipant`. -/
structure LogEntryParticipant where
  Alias : GoString
  Host : GoString
  Name : GoString
  ParticipantID : GoString
  ProductName : GoString
  SipNode : GoString
  deriving DecidableEq, Repr

/-- Go struct `GlobalLogMetaInfo`. -/
structure GlobalLogMetaInfo where
  SessionList : List GoString
  H323ConfID : GoString
  ParticipantList : List LogEntryParticipant
  NodeList : List GoString
  CallID : GoString
  CLDList : List GoString
  CLIList : List GoString
  IAccount : List GoString
  ICustomer : List GoString
  ParentBillingSessionID : GoString
  deriving DecidableEq, Repr

/-- Go struct `LogEntryMetaInfo`. -/
structure LogEntryMetaInfo where
  DateTime : GoString
  DiagramText : GoString
  DialogID : GoString
  Level : Int
  MessageClass : GoString
  Operation : GoString
  ParticipantFrom : GoString
  ParticipantFromID : GoString
  ParticipantTo : GoString
  ParticipantToID : GoString
  SipNode : GoString
  deriving DecidableEq, Repr

/-- Go struct `SipLogEntry`. -/
structure SipLogEntry where
  MetaInfo : LogEntryMetaInfo
  SipLogMessage : GoString
  «Type» : GoString
  deriving DecidableEq, Repr

/-- Go struct `SipLogEntryRequest`. -/
structure SipLogEntryRequest where
  LogEntries : List SipLogEntry
  GlobalMetaInfo : GlobalLogMetaInfo
  deriving DecidableEq, Repr

/-- Go struct `SipLogEntryResponse`. -/
structure SipLogEntryResponse where
  LogEntries : List SipLogEntry
  GlobalMetaInfo : GlobalLogMetaInfo
  deriving DecidableEq, Repr

/-- Field-by-field equality of two `GlobalLogMetaInfo` values. -/
def SameFields (a b : GlobalLogMetaInfo) : Prop :=
  a.SessionList = b.SessionList ∧
  a.H323ConfID = b.H323ConfID ∧
  a.ParticipantList = b.ParticipantList ∧
  a.NodeList = b.NodeList ∧
  a.CallID = b.CallID ∧
  a.CLDList = b.CLDList ∧
  a.CLIList = b.CLIList ∧
  a.IAccount = b.IAccount ∧
  a.ICustomer = b.ICustomer ∧
  a.ParentBillingSessionID = b.ParentBillingSessionID

/-! ## The external redaction capability -/

/-- Outcome of one call `sipanonymizer.ProcessMessage(v)`.
`ret` is the returned `[]byte`, `buf` the contents of the caller's slice `v`
after the call, and `failed` tells whether the capability reports a failure
for this call. No call site of `main.go` looks at `ret` or at `failed`. -/
structure ProcessResult where
  ret : GoString
  buf : GoString
  failed : Bool
  deriving DecidableEq, Repr

/-- The capability `sipanonymizer.ProcessMessage`, one fixed deterministic
function. The callee may overwrite elements of the slice it receives but
cannot change the length the caller sees. -/
structure Redactor where
  ProcessMessage : GoString → ProcessResult
  buf_length : ∀ v, (ProcessMessage v).buf.length = v.length

/-! ## Sequential strategy -/

/-- Go `processSipLogEntry1`. `parsedText` starts as the nil slice; only for
`Type == "sip"` it becomes a copy of the message, which is then handed to
`ProcessMessage` (return value dropped); the result entry is built from
`string(parsedText)`. -/
def processSipLogEntry1 (red : Redactor) (entry : SipLogEntry) : SipLogEntry :=
  let parsedText : GoString :=
    if entry.«Type» = sipTag then
      (red.ProcessMessage entry.SipLogMessage).buf
    else
      []
  { MetaInfo := entry.MetaInfo,
    «Type» := entry.«Type»,
    SipLogMessage := parsedText }

/-- Go `NewSipLogEntryResponse1`: the `range` loop appends one processed
entry per input entry; the returned pointer is never nil. -/
def NewSipLogEntryResponse1 (red : Redactor) (req : SipLogEntryRequest) :
    Option SipLogEntryResponse :=
  let resp : SipLogEntryResponse :=
    { GlobalMetaInfo := req.GlobalMetaInfo, LogEntries := [] }
  some { resp with
    LogEntries := req.LogEntries.foldl
      (fun acc entry => acc ++ [processSipLogEntry1 red entry]) resp.LogEntries }

/-! ## Fan-out/fan-in strategy -/

/-- Go `processSipLogEntry2`. The capability is called on a temporary copy of
the message when `Type == "sip"`; the call's result is dropped and the new
entry is built from the fields of `entry`. The returned pointer is never nil. -/
def processSipLogEntry2 (red : Redactor) (entry : SipLogEntry) : Option SipLogEntry :=
  let _dropped : Option ProcessResult :=
    if entry.«Type» = sipTag then some (red.ProcessMessage entry.SipLogMessage) else none
  some { MetaInfo := entry.MetaInfo,
         «Type» := entry.«Type»,
         SipLogMessage := entry.SipLogMessage }

/-- Go struct `channelResult`. -/
structure channelResult where
  ID : Nat
  LogEntry : Option SipLogEntry
  deriving DecidableEq, Repr

/-- The values sent on the channel by the goroutines started in the first
loop of `NewSipLogEntryResponse2`, listed by loop index starting at `i`.
Goroutine `i` is started by the iteration that has just assigned `entry` and
is given `i` by value and the pointer `&entry`; it sends
`channelResult{ID: i, LogEntry: processSipLogEntry2(entry)}`, where `*entry`
is what the loop variable holds when the goroutine runs: the entry of
iteration `i + lag i`, or the last entry when the loop has finished. -/
def launch (red : Redactor) (lag : Nat → Nat) : Nat → List SipLogEntry → List channelResult
  | _, [] => []
  | i, entry :: rest =>
    { ID := i,
      LogEntry :=
        processSipLogEntry2 red ((entry :: rest).getD (min (lag i) rest.length) entry) }
      :: launch red lag (i + 1) rest

/-- Go `map[int]*SipLogEntry`: `none` for an absent key, `some p` for a key
bound to the pointer `p`. -/
abbrev EntryMap := Nat → Option (Option SipLogEntry)

/-- The map `make(map[int]*SipLogEntry, eLen)`, with no key. -/
def emptyMap : EntryMap := fun _ => none

/-- Go `m[k] = v`. -/
def mapStore (m : EntryMap) (k : Nat) (v : Option SipLogEntry) : EntryMap :=
  fun j => if j = k then some v else m j

/-- Go `m[i]` as an expression: the nil pointer when the key is absent. -/
def mapIndex (m : EntryMap) (i : Nat) : Option SipLogEntry :=
  match m i with
  | some p => p
  | none => none

/-- The loop `for res := range c { m[res.ID] = res.LogEntry }` over the
values received from the closed channel, in the order they arrive. -/
def collect (received : List channelResult) : EntryMap :=
  received.foldl (fun m res => mapStore m res.ID res.LogEntry) emptyMap

/-- The loop `for i := 0; i < len(req.LogEntries); i++` that appends `*m[i]`,
run over the indices still to visit; dereferencing a nil pointer panics. -/
def reassemble (m : EntryMap) : List Nat → List SipLogEntry → Except String (List SipLogEntry)
  | [], acc => Except.ok acc
  | i :: rest, acc =>
    match mapIndex m i with
    | some e => reassemble m rest (acc ++ [e])
    | none => Except.error "invalid memory address or nil pointer dereference"

/-- Go `NewSipLogEntryResponse2`. `lag` tells when each goroutine reads the
loop variable and `arrival` is the order in which the closed channel hands
out the values the goroutines have sent (all of them have been sent when
`wg.Wait()` returns). `Except.error` is a panic; the returned pointer is
never nil. -/
def NewSipLogEntryResponse2 (red : Redactor) (req : SipLogEntryRequest)
    (lag : Nat → Nat) (arrival : List channelResult → List channelResult) :
    Except String (Option SipLogEntryResponse) :=
  let resp : SipLogEntryResponse :=
    { GlobalMetaInfo := req.GlobalMetaInfo, LogEntries := [] }
  let m := collect (arrival (launch red lag 0 req.LogEntries))
  match reassemble m (List.range req.LogEntries.length) resp.LogEntries with
  | Except.ok entries => Except.ok (some { resp with LogEntries := entries })
  | Except.error p => Except.error p

/-- The channel hands out exactly the values that were sent on it, in some
order: `arrival` permutes the values sent for this request. -/
def Delivers (red : Redactor) (req : SipLogEntryRequest) (lag : Nat → Nat)
    (arrival : List channelResult → List channelResult) : Prop :=
  (arrival (launch red lag 0 req.LogEntries)).Perm (launch red lag 0 req.LogEntries)

/-- The entries the goroutines find behind `&entry`, by loop index starting
at `i`. -/
def observed (lag : Nat → Nat) : Nat → List SipLogEntry → List SipLogEntry
  | _, [] => []
  | i, entry :: rest =>
    (entry :: rest).getD (min (lag i) rest.length) entry :: observed lag (i + 1) rest

/-- The entries `outs` tagged with the consecutive indices from `i` on. -/
def tagged : Nat → List SipLogEntry → List channelResult
  | _, [] => []
  | i, e :: rest => { ID := i, LogEntry := some e } :: tagged (i + 1) rest

/-- Every goroutine runs before the next iteration assigns the loop variable
(always so when each iteration has its own variable). -/
def noLag : Nat → Nat := fun _ => 0

/-- Every goroutine runs one iteration late: when the next iteration, if
there is one, has assigned the loop variable. On a batch of two entries both
goroutines then read the variable as the finished loop left it. -/
def oneLate : Nat → Nat := fun _ => 1

/-! ## The HTTP handler -/

/-- Go struct `ErrResponse` (the `Err` field is kept as its message). -/
structure ErrResponse where
  Err : GoString
  HTTPStatusCode : Int
  StatusText : GoString
  AppCode : Int
  ErrorText : GoString
  deriving DecidableEq, Repr

/-- Go `ErrInvalidRequest`. -/
def ErrInvalidRequest (err : GoString) : ErrResponse :=
  { Err := err,
    HTTPStatusCode := 400,
    StatusText := ascii "Invalid request.",
    AppCode := 0,
    ErrorText := err }

/-- What `sipHandler` hands to `render.Render`. -/
inductive Rendered where
  | failure (e : ErrResponse)
  | batch (resp : SipLogEntryResponse)
  | nothing
  deriving DecidableEq, Repr

/-- The status set with `render.Status` and the rendered value. -/
structure Reply where
  status : Int
  body : Rendered
  deriving DecidableEq, Repr

/-- Go `sipHandler`, given the result of `render.Bind` (the decoded request,
or the decoding error). -/
def sipHandler (red : Redactor) (bound : Except GoString SipLogEntryRequest) : Reply :=
  match bound with
  | Except.error err =>
    let e := ErrInvalidRequest err
    { status := e.HTTPStatusCode, body := Rendered.failure e }
  | Except.ok sipMsgReq =>
    match NewSipLogEntryResponse1 red sipMsgReq with
    | some resp => { status := 200, body := Rendered.batch resp }
    | none => { status := 400, body := Rendered.nothing }

/-! ## Concrete capabilities and inputs used in the examples -/

/-- A capability in the shape of the interface `redact(bytes) -> bytes`: it
leaves the caller's buffer as it is and returns the text `REDACTED`. -/
def constRedactor : Redactor where
  ProcessMessage v := { ret := ascii "REDACTED", buf := v, failed := false }
  buf_length _ := rfl

/-- A capability that reports a failure on every call, returns the empty
slice and leaves the caller's buffer as it is. -/
def failingRedactor : Redactor where
  ProcessMessage v := { ret := [], buf := v, failed := true }
  buf_length _ := rfl

/-- A capability that overwrites every byte of the buffer with `x` in place
and returns that text. -/
def maskRedactor : Redactor where
  ProcessMessage v :=
    { ret := v.map (fun _ => 120), buf := v.map (fun _ => 120), failed := false }
  buf_length v := by simp

/-- An entry metadata value with every field empty. -/
def emptyMeta : LogEntryMetaInfo :=
  { DateTime := [], DiagramText := [], DialogID := [], Level := 0, MessageClass := [],
    Operation := [], ParticipantFrom := [], ParticipantFromID := [], ParticipantTo := [],
    ParticipantToID := [], SipNode := [] }

/-- A batch metadata value with a populated session list and call id. -/
def sampleGlobal : GlobalLogMetaInfo :=
  { SessionList := [ascii "s1", ascii "s2"], H323ConfID := [], ParticipantList := [],
    NodeList := [], CallID := ascii "c-1", CLDList := [], CLIList := [], IAccount := [],
    ICustomer := [], ParentBillingSessionID := [] }

/-- Entry 0 of the spec's example: a `sip` entry. -/
def sipEntry : SipLogEntry :=
  { MetaInfo := { emptyMeta with Level := 1 },
    SipLogMessage := ascii "INVITE sip:alice@example.com",
    «Type» := ascii "sip" }

/-- Entry 1 of the spec's example: a `note` entry. -/
def noteEntry : SipLogEntry :=
  { MetaInfo := { emptyMeta with Level := 2 },
    SipLogMessage := ascii "operator comment",
    «Type» := ascii "note" }

/-- A batch with the `sip` entry alone. -/
def sipOnlyReq : SipLogEntryRequest :=
  { LogEntries := [sipEntry], GlobalMetaInfo := sampleGlobal }

/-- A batch with the `note` entry alone. -/
def noteOnlyReq : SipLogEntryRequest :=
  { LogEntries := [noteEntry], GlobalMetaInfo := sampleGlobal }

/-- The spec's example batch: the `sip` entry followed by the `note` entry. -/
def sampleReq : SipLogEntryRequest :=
  { LogEntries := [sipEntry, noteEntry], GlobalMetaInfo := sampleGlobal }

/-! ## Lemmas on the sequential strategy -/

/-- The append loop of `NewSipLogEntryResponse1` is a map over the entries. -/
theorem foldl_append_process (f : SipLogEntry → SipLogEntry) (l acc : List SipLogEntry) :
    l.foldl (fun acc entry => acc ++ [f entry]) acc = acc ++ l.map f := by
  induction l generalizing acc with
  | nil => simp
  | cons e t ih => simp [List.foldl, ih]

/-- Closed form of `NewSipLogEntryResponse1`. -/
theorem NewSipLogEntryResponse1_eq (red : Redactor) (req : SipLogEntryRequest) :
    NewSipLogEntryResponse1 red req =
      some { LogEntries := req.LogEntries.map (processSipLogEntry1 red),
             GlobalMetaInfo := req.GlobalMetaInfo } := by
  simp [NewSipLogEntryResponse1, foldl_append_process]

/-- What `processSipLogEntry1` puts in `SipLogMessage` for a `sip` entry: the
buffer as the capability left it. -/
theorem processSipLogEntry1_sip (red : Redactor) (entry : SipLogEntry)
    (h : entry.«Type» = sipTag) :
    (processSipLogEntry1 red entry).SipLogMessage
      = (red.ProcessMessage entry.SipLogMessage).buf := by
  simp [processSipLogEntry1, h]

/-- What `processSipLogEntry1` puts in `SipLogMessage` for any other entry:
the empty string, from the nil `parsedText`. -/
theorem processSipLogEntry1_other (red : Redactor) (entry : SipLogEntry)
    (h : entry.«Type» ≠ sipTag) :
    (processSipLogEntry1 red entry).SipLogMessage = [] := by
  simp [processSipLogEntry1, h]

/-! ## Lemmas on the fan-out/fan-in strategy -/

/-- The entry `processSipLogEntry2` builds has the fields of its input. -/
theorem processSipLogEntry2_eq (red : Redactor) (entry : SipLogEntry) :
    processSipLogEntry2 red entry = some entry := rfl

/-- As many entries are read as there are goroutines. -/
theorem observed_length (lag : Nat → Nat) (es : List SipLogEntry) (i : Nat) :
    (observed lag i es).length = es.length := by
  induction es generalizing i with
  | nil => rfl
  | cons e t ih => simp [observed, ih]

/-- The one goroutine of a one-entry batch reads that entry. -/
theorem observed_singleton (lag : Nat → Nat) (e : SipLogEntry) (i : Nat) :
    observed lag i [e] = [e] := by
  simp [observed]

/-- Goroutines that run before the loop variable is assigned again read the
entry of their own iteration. -/
theorem observed_noLag (es : List SipLogEntry) (i : Nat) :
    observed noLag i es = es := by
  induction es generalizing i with
  | nil => rfl
  | cons e t ih => simp [observed, noLag, ih]

/-- The goroutines send the entries they read, tagged with their indices. -/
theorem launch_eq_tagged (red : Redactor) (lag : Nat → Nat) (es : List SipLogEntry)
    (i : Nat) : launch red lag i es = tagged i (observed lag i es) := by
  induction es generalizing i with
  | nil => rfl
  | cons e t ih => simp [launch, observed, tagged, ih, processSipLogEntry2_eq]

/-- Tagging uses the indices `i, i+1, ...`, one each. -/
theorem tagged_ids (outs : List SipLogEntry) (i : Nat) :
    (tagged i outs).map (fun r => r.ID) = List.range' i outs.length := by
  induction outs generalizing i with
  | nil => rfl
  | cons e t ih => simp [tagged, ih, List.range'_succ]

/-- The goroutines report the indices `i, i+1, ...`, one each. -/
theorem launch_ids (red : Redactor) (lag : Nat → Nat) (es : List SipLogEntry) (i : Nat) :
    (launch red lag i es).map (fun r => r.ID) = List.range' i es.length := by
  rw [launch_eq_tagged, tagged_ids, observed_length]

/-- The entry at position `j` is tagged with the index `i + j`. -/
theorem mem_tagged (outs : List SipLogEntry) (i j : Nat) (hj : j < outs.length) :
    ({ ID := i + j, LogEntry := some outs[j] } : channelResult) ∈ tagged i outs := by
  induction outs generalizing i j with
  | nil => simp at hj
  | cons e t ih =>
    cases j with
    | zero => simp [tagged]
    | succ j =>
      have hj2 : j < t.length := by simpa using hj
      have h := ih (i + 1) j hj2
      have e1 : i + 1 + j = i + (j + 1) := by omega
      rw [e1] at h
      simp only [tagged, List.getElem_cons_succ]
      exact List.mem_cons_of_mem _ h

/-- Storing results under keys other than `k` leaves the slot `k` alone. -/
theorem foldl_store_other (l : List channelResult) (m : EntryMap) (k : Nat)
    (h : ∀ r ∈ l, r.ID ≠ k) :
    l.foldl (fun m res => mapStore m res.ID res.LogEntry) m k = m k := by
  induction l generalizing m with
  | nil => rfl
  | cons a t ih =>
    have ha : a.ID ≠ k := h a (List.mem_cons_self _ _)
    have ht : ∀ r ∈ t, r.ID ≠ k := fun r hr => h r (List.mem_cons_of_mem _ hr)
    rw [List.foldl_cons, ih _ ht]
    simp [mapStore, Ne.symm ha]

/-- When every index is reported once, the slot of a reported index holds the
pointer reported with it. -/
theorem foldl_store_mem (l : List channelResult) (m : EntryMap) (r : channelResult)
    (hnd : (l.map (fun r => r.ID)).Nodup) (hr : r ∈ l) :
    l.foldl (fun m res => mapStore m res.ID res.LogEntry) m r.ID = some r.LogEntry := by
  induction l generalizing m with
  | nil => simp at hr
  | cons a t ih =>
    rw [List.map_cons, List.nodup_cons] at hnd
    rw [List.foldl_cons]
    rcases List.mem_cons.mp hr with rfl | hrt
    · have hno : ∀ x ∈ t, x.ID ≠ r.ID := by
        intro x hx hxe
        exact hnd.1 (List.mem_map.mpr ⟨x, hx, hxe⟩)
      rw [foldl_store_other t _ _ hno]
      simp [mapStore]
    · exact ih _ hnd.2 hrt

/-- The indices received are the indices sent, each once. -/
theorem arrival_ids (red : Redactor) (req : SipLogEntryRequest) (lag : Nat → Nat)
    (arrival : List channelResult → List channelResult)
    (h : Delivers red req lag arrival) :
    ((arrival (launch red lag 0 req.LogEntries)).map (fun r => r.ID)).Perm
      (List.range req.LogEntries.length) := by
  have := List.Perm.map (fun r : channelResult => r.ID) h
  rwa [launch_ids, ← List.range_eq_range'] at this

/-- After the collection loop the slot of every index below `N` holds the
pointer to the entry the goroutine of that index read. -/
theorem collect_lt (red : Redactor) (req : SipLogEntryRequest) (lag : Nat → Nat)
    (arrival : List channelResult → List channelResult)
    (h : Delivers red req lag arrival)
    (k : Nat) (hk : k < (observed lag 0 req.LogEntries).length) :
    collect (arrival (launch red lag 0 req.LogEntries)) k
      = some (some (observed lag 0 req.LogEntries)[k]) := by
  have hnd : ((arrival (launch red lag 0 req.LogEntries)).map (fun r => r.ID)).Nodup :=
    (arrival_ids red req lag arrival h).nodup_iff.mpr (List.nodup_range _)
  have hmem : ({ ID := k, LogEntry := some (observed lag 0 req.LogEntries)[k] }
      : channelResult) ∈ arrival (launch red lag 0 req.LogEntries) := by
    have := mem_tagged (observed lag 0 req.LogEntries) 0 k hk
    rw [Nat.zero_add, ← launch_eq_tagged red] at this
    exact h.mem_iff.mpr this
  exact foldl_store_mem _ emptyMap _ hnd hmem

/-- After the collection loop no index from `N` on is a key of the map. -/
theorem collect_ge (red : Redactor) (req : SipLogEntryRequest) (lag : Nat → Nat)
    (arrival : List channelResult → List channelResult)
    (h : Delivers red req lag arrival)
    (k : Nat) (hk : req.LogEntries.length ≤ k) :
    collect (arrival (launch red lag 0 req.LogEntries)) k = none := by
  have hno : ∀ r ∈ arrival (launch red lag 0 req.LogEntries), r.ID ≠ k := by
    intro r hr hrk
    have h1 : r.ID ∈ (arrival (launch red lag 0 req.LogEntries)).map (fun r => r.ID) :=
      List.mem_map.mpr ⟨r, hr, rfl⟩
    have h2 := (arrival_ids red req lag arrival h).mem_iff.mp h1
    rw [List.mem_range] at h2
    omega
  unfold collect
  rw [foldl_store_other _ _ _ hno]
  rfl

/-- The final loop over consecutive indices whose slots hold `es` appends `es`. -/
theorem reassemble_range' (m : EntryMap) (es : List SipLogEntry) (i : Nat)
    (acc : List SipLogEntry)
    (h : ∀ j (hj : j < es.length), mapIndex m (i + j) = some es[j]) :
    reassemble m (List.range' i es.length) acc = Except.ok (acc ++ es) := by
  induction es generalizing i acc with
  | nil => simp [reassemble]
  | cons e t ih =>
    have h0 : mapIndex m i = some e := by simpa using h 0 (by simp)
    have ht : ∀ j (hj : j < t.length), mapIndex m (i + 1 + j) = some t[j] := by
      intro j hj
      have := h (j + 1) (by simpa using hj)
      have e1 : i + 1 + j = i + (j + 1) := by omega
      rw [e1]
      simpa using this
    simp only [List.length_cons, List.range'_succ, reassemble, h0]
    rw [ih (i + 1) (acc ++ [e]) ht]
    simp

/-- Closed form of `NewSipLogEntryResponse2`: whatever the arrival order, it
returns a response with the request's metadata and, at index `i`, the entry
goroutine `i` read. -/
theorem NewSipLogEntryResponse2_eq (red : Redactor) (req : SipLogEntryRequest)
    (lag : Nat → Nat) (arrival : List channelResult → List channelResult)
    (h : Delivers red req lag arrival) :
    NewSipLogEntryResponse2 red req lag arrival =
      Except.ok (some { LogEntries := observed lag 0 req.LogEntries,
                        GlobalMetaInfo := req.GlobalMetaInfo }) := by
  have hidx : ∀ j (hj : j < (observed lag 0 req.LogEntries).length),
      mapIndex (collect (arrival (launch red lag 0 req.LogEntries))) (0 + j)
        = some (observed lag 0 req.LogEntries)[j] := by
    intro j hj
    rw [Nat.zero_add]
    unfold mapIndex
    rw [collect_lt red req lag arrival h j hj]
  have hre := reassemble_range' _ (observed lag 0 req.LogEntries) 0 [] hidx
  rw [observed_length] at hre
  unfold NewSipLogEntryResponse2
  simp only [List.range_eq_range', hre, List.nil_append]

/-- When every goroutine reads the entry of its own iteration, the response
of `NewSipLogEntryResponse2` holds the request's entries in input order,
whatever the arrival order. -/
theorem NewSipLogEntryResponse2_noLag (red : Redactor) (req : SipLogEntryRequest)
    (arrival : List channelResult → List channelResult)
    (h : Delivers red req noLag arrival) :
    NewSipLogEntryResponse2 red req noLag arrival =
      Except.ok (some { LogEntries := req.LogEntries,
                        GlobalMetaInfo := req.GlobalMetaInfo }) := by
  rw [NewSipLogEntryResponse2_eq red req noLag arrival h, observed_noLag]

/-- On a batch of one entry `NewSipLogEntryResponse2` returns that entry,
whenever its goroutine runs. -/
theorem NewSipLogEntryResponse2_single (red : Redactor) (e : SipLogEntry)
    (g : GlobalLogMetaInfo) (lag : Nat → Nat) :
    NewSipLogEntryResponse2 red { LogEntries := [e], GlobalMetaInfo := g } lag id =
      Except.ok (some { LogEntries := [e], GlobalMetaInfo := g }) := by
  rw [NewSipLogEntryResponse2_eq red _ lag id (List.Perm.refl _), observed_singleton]

/-! ## Sequential strategy: what the response holds -/

/-- C1 (the code departs from it): the `note` entry of the example batch has a
`Type` other than `sip` and the text `operator comment`, yet
`processSipLogEntry1` returns it with an empty `SipLogMessage`, and so does
its slot in the response of `NewSipLogEntryResponse1`. -/
theorem C1_sequential_drops_other_text :
    noteEntry.«Type» ≠ sipTag ∧
    noteEntry.SipLogMessage = ascii "operator comment" ∧
    (processSipLogEntry1 constRedactor noteEntry).SipLogMessage = [] ∧
    (processSipLogEntry1 constRedactor noteEntry).SipLogMessage ≠ noteEntry.SipLogMessage ∧
    NewSipLogEntryResponse1 constRedactor sampleReq =
      some { LogEntries := [sipEntry, { noteEntry with SipLogMessage := [] }],
             GlobalMetaInfo := sampleGlobal } := by
  decide

/-- C2 (as stated it fails): for the `sip` entry of the example batch and a
capability that returns `REDACTED` without writing into its argument,
`processSipLogEntry1` returns what is in the buffer, the original text, not
the returned value, and so does the response of `NewSipLogEntryResponse1`. -/
theorem C2_sequential_ignores_returned_text :
    sipEntry.«Type» = sipTag ∧
    (constRedactor.ProcessMessage sipEntry.SipLogMessage).ret = ascii "REDACTED" ∧
    (processSipLogEntry1 constRedactor sipEntry).SipLogMessage
      = ascii "INVITE sip:alice@example.com" ∧
    (processSipLogEntry1 constRedactor sipEntry).SipLogMessage
      ≠ (constRedactor.ProcessMessage sipEntry.SipLogMessage).ret ∧
    NewSipLogEntryResponse1 constRedactor sipOnlyReq =
      some { LogEntries := [sipEntry], GlobalMetaInfo := sampleGlobal } := by
  decide

/-- C2 (amended): for every `sip` entry of a request, the `SipLogMessage`
returned by `processSipLogEntry1`, and held at the same index of the response
of `NewSipLogEntryResponse1`, is the buffer handed to `ProcessMessage` as the
call left it; it is the value the capability returns whenever the capability
returns the bytes it leaves in that buffer. -/
theorem C2_sequential_returns_processed_buffer (red : Redactor) (req : SipLogEntryRequest)
    (i : Nat) (hi : i < req.LogEntries.length)
    (hs : (req.LogEntries[i]).«Type» = sipTag) :
    (processSipLogEntry1 red req.LogEntries[i]).SipLogMessage
      = (red.ProcessMessage (req.LogEntries[i]).SipLogMessage).buf ∧
    (∃ resp out, NewSipLogEntryResponse1 red req = some resp ∧
      resp.LogEntries[i]? = some out ∧
      out.SipLogMessage = (red.ProcessMessage (req.LogEntries[i]).SipLogMessage).buf) ∧
    ((red.ProcessMessage (req.LogEntries[i]).SipLogMessage).ret
        = (red.ProcessMessage (req.LogEntries[i]).SipLogMessage).buf →
      (processSipLogEntry1 red req.LogEntries[i]).SipLogMessage
        = (red.ProcessMessage (req.LogEntries[i]).SipLogMessage).ret) := by
  have hb := processSipLogEntry1_sip red req.LogEntries[i] hs
  refine ⟨hb, ⟨_, processSipLogEntry1 red req.LogEntries[i],
    NewSipLogEntryResponse1_eq red req, ?_, hb⟩, fun hr => hb.trans hr.symm⟩
  simp [List.getElem?_map, List.getElem?_eq_getElem hi]

/-- C2 (amended) on the example batch with a capability that overwrites its
argument in place and returns the overwritten text. -/
theorem C2_sequential_returns_processed_buffer_witness :
    (sampleReq.LogEntries[0]).«Type» = sipTag ∧
    (maskRedactor.ProcessMessage sipEntry.SipLogMessage).buf
      = ascii "xxxxxxxxxxxxxxxxxxxxxxxxxxxx" ∧
    (processSipLogEntry1 maskRedactor sipEntry).SipLogMessage
      = (maskRedactor.ProcessMessage sipEntry.SipLogMessage).buf ∧
    (processSipLogEntry1 maskRedactor sipEntry).SipLogMessage
      = (maskRedactor.ProcessMessage sipEntry.SipLogMessage).ret :=
  have h := C2_sequential_returns_processed_buffer maskRedactor sampleReq 0
    (by decide) (by decide)
  ⟨by decide, by decide, h.1, h.2.2 rfl⟩

/-- C4: `NewSipLogEntryResponse1` returns a response with as many entries as
the request, and at every index the output entry has the `MetaInfo` and the
`Type` of the input entry at that index, `sip` or not. -/
theorem C4_sequential_length_order_meta (red : Redactor) (req : SipLogEntryRequest) :
    ∃ resp, NewSipLogEntryResponse1 red req = some resp ∧
      resp.LogEntries.length = req.LogEntries.length ∧
      ∀ i (hi : i < req.LogEntries.length),
        ∃ out, resp.LogEntries[i]? = some out ∧
          out.MetaInfo = (req.LogEntries[i]).MetaInfo ∧
          out.«Type» = (req.LogEntries[i]).«Type» := by
  refine ⟨_, NewSipLogEntryResponse1_eq red req, by simp, ?_⟩
  intro i hi
  refine ⟨processSipLogEntry1 red req.LogEntries[i], ?_, rfl, rfl⟩
  simp [List.getElem?_map, List.getElem?_eq_getElem hi]

/-- C4 on the example batch and on the empty batch. -/
theorem C4_sequential_length_order_meta_witness :
    (∃ resp, NewSipLogEntryResponse1 maskRedactor sampleReq = some resp ∧
      resp.LogEntries.length = 2 ∧
      ∀ i (hi : i < sampleReq.LogEntries.length),
        ∃ out, resp.LogEntries[i]? = some out ∧
          out.MetaInfo = (sampleReq.LogEntries[i]).MetaInfo ∧
          out.«Type» = (sampleReq.LogEntries[i]).«Type») ∧
    NewSipLogEntryResponse1 maskRedactor { LogEntries := [], GlobalMetaInfo := sampleGlobal }
      = some { LogEntries := [], GlobalMetaInfo := sampleGlobal } :=
  ⟨C4_sequential_length_order_meta maskRedactor sampleReq, by decide⟩

/-! ## Fan-out/fan-in strategy: what the response holds -/

/-- C3 (the code departs from it): for the `sip` entry of the example batch,
`processSipLogEntry2` returns the original text, not the text the capability
returns, be it a capability that leaves its argument alone or one that
overwrites it in place; and so does the response of `NewSipLogEntryResponse2`
on the batch of that one entry, whenever its goroutine runs. -/
theorem C3_fan_out_ignores_returned_text :
    sipEntry.«Type» = sipTag ∧
    (constRedactor.ProcessMessage sipEntry.SipLogMessage).ret = ascii "REDACTED" ∧
    processSipLogEntry2 constRedactor sipEntry = some sipEntry ∧
    sipEntry.SipLogMessage ≠ (constRedactor.ProcessMessage sipEntry.SipLogMessage).ret ∧
    (maskRedactor.ProcessMessage sipEntry.SipLogMessage).ret
      = ascii "xxxxxxxxxxxxxxxxxxxxxxxxxxxx" ∧
    processSipLogEntry2 maskRedactor sipEntry = some sipEntry ∧
    sipEntry.SipLogMessage ≠ (maskRedactor.ProcessMessage sipEntry.SipLogMessage).ret ∧
    ∀ lag, NewSipLogEntryResponse2 constRedactor sipOnlyReq lag id =
      Except.ok (some { LogEntries := [sipEntry], GlobalMetaInfo := sampleGlobal }) := by
  refine ⟨by decide, by decide, rfl, by decide, by decide, rfl, by decide, ?_⟩
  intro lag
  exact NewSipLogEntryResponse2_single constRedactor sipEntry sampleGlobal lag

/-- C5 (the code departs from it): on the batch made of the `note` entry alone
the two strategies return different responses: the sequential one an entry
with an empty text, the fan-out/fan-in one the entry as it came. -/
theorem C5_strategies_differ :
    NewSipLogEntryResponse1 constRedactor noteOnlyReq =
      some { LogEntries := [{ noteEntry with SipLogMessage := [] }],
             GlobalMetaInfo := sampleGlobal } ∧
    ∀ lag,
      NewSipLogEntryResponse2 constRedactor noteOnlyReq lag id =
        Except.ok (some { LogEntries := [noteEntry], GlobalMetaInfo := sampleGlobal }) ∧
      NewSipLogEntryResponse2 constRedactor noteOnlyReq lag id
        ≠ Except.ok (NewSipLogEntryResponse1 constRedactor noteOnlyReq) := by
  refine ⟨by decide, fun lag => ?_⟩
  have h2 := NewSipLogEntryResponse2_single constRedactor noteEntry sampleGlobal lag
  refine ⟨h2, ?_⟩
  intro h
  have h3 : (some { LogEntries := [noteEntry], GlobalMetaInfo := sampleGlobal }
      : Option SipLogEntryResponse) = NewSipLogEntryResponse1 constRedactor noteOnlyReq :=
    Except.ok.inj (h2.symm.trans h)
  revert h3
  decide

/-- C6: in both strategies the response carries the request's
`GlobalMetaInfo`, equal as a whole and in each of its ten fields, whatever
the entries are and whenever the goroutines run. -/
theorem C6_global_meta_info_preserved (red : Redactor) (req : SipLogEntryRequest)
    (lag : Nat → Nat) (arrival : List channelResult → List channelResult)
    (h : Delivers red req lag arrival) :
    (∃ r1, NewSipLogEntryResponse1 red req = some r1 ∧
      r1.GlobalMetaInfo = req.GlobalMetaInfo ∧
      SameFields r1.GlobalMetaInfo req.GlobalMetaInfo) ∧
    (∃ r2, NewSipLogEntryResponse2 red req lag arrival = Except.ok (some r2) ∧
      r2.GlobalMetaInfo = req.GlobalMetaInfo ∧
      SameFields r2.GlobalMetaInfo req.GlobalMetaInfo) :=
  ⟨⟨_, NewSipLogEntryResponse1_eq red req, rfl,
    rfl, rfl, rfl, rfl, rfl, rfl, rfl, rfl, rfl, rfl⟩,
   ⟨_, NewSipLogEntryResponse2_eq red req lag arrival h, rfl,
    rfl, rfl, rfl, rfl, rfl, rfl, rfl, rfl, rfl, rfl⟩⟩

/-- C6 on the example batch, the goroutines running after the loop and the
results arriving in reverse order. -/
theorem C6_global_meta_info_preserved_witness :
    Delivers maskRedactor sampleReq oneLate List.reverse ∧
    (∃ r1, NewSipLogEntryResponse1 maskRedactor sampleReq = some r1 ∧
      r1.GlobalMetaInfo = sampleGlobal) ∧
    (∃ r2, NewSipLogEntryResponse2 maskRedactor sampleReq oneLate List.reverse
        = Except.ok (some r2) ∧
      r2.GlobalMetaInfo = sampleGlobal) :=
  have hd : Delivers maskRedactor sampleReq oneLate List.reverse := List.reverse_perm _
  have h := C6_global_meta_info_preserved maskRedactor sampleReq oneLate List.reverse hd
  ⟨hd, h.1.imp (fun _ hr => ⟨hr.1, hr.2.1⟩), h.2.imp (fun _ hr => ⟨hr.1, hr.2.1⟩)⟩

/-- C7 (the code departs from it): on the example batch, when both goroutines
run after the loop has finished, `NewSipLogEntryResponse2` returns the `note`
entry at index 0 and at index 1, whereas `processSipLogEntry2` computes the
`sip` entry for the request's entry at index 0: output order is not input
order. The channel delivers what was sent, in sending order. -/
theorem C7_fan_in_shared_variable_breaks_order :
    launch constRedactor oneLate 0 sampleReq.LogEntries
      = [{ ID := 0, LogEntry := some noteEntry }, { ID := 1, LogEntry := some noteEntry }] ∧
    Delivers constRedactor sampleReq oneLate id ∧
    NewSipLogEntryResponse2 constRedactor sampleReq oneLate id =
      Except.ok (some { LogEntries := [noteEntry, noteEntry],
                        GlobalMetaInfo := sampleGlobal }) ∧
    sampleReq.LogEntries[0]? = some sipEntry ∧
    processSipLogEntry2 constRedactor sipEntry = some sipEntry ∧
    sipEntry ≠ noteEntry :=
  ⟨rfl, List.Perm.refl _, rfl, rfl, rfl, by decide⟩

/-- C9 (the code departs from it): `processSipLogEntry2` returns a pointer to
an entry equal to its input, whatever its `Type` and whatever the capability
does; yet on the example batch, when both goroutines run after the loop has
finished, the entries of the response of `NewSipLogEntryResponse2` are twice
the `note` entry, not the entries of the request. -/
theorem C9_fan_out_entry_kept_batch_not :
    (∀ (red : Redactor) (entry : SipLogEntry),
      ∃ out, processSipLogEntry2 red entry = some out ∧
        out.MetaInfo = entry.MetaInfo ∧ out.«Type» = entry.«Type» ∧
        out.SipLogMessage = entry.SipLogMessage ∧ out = entry) ∧
    Delivers maskRedactor sampleReq oneLate List.reverse ∧
    NewSipLogEntryResponse2 maskRedactor sampleReq oneLate List.reverse =
      Except.ok (some { LogEntries := [noteEntry, noteEntry],
                        GlobalMetaInfo := sampleGlobal }) ∧
    [noteEntry, noteEntry] ≠ sampleReq.LogEntries :=
  ⟨fun red entry => ⟨entry, processSipLogEntry2_eq red entry, rfl, rfl, rfl, rfl⟩,
   List.reverse_perm _, rfl, by decide⟩

/-- C10: once all results are collected, the indices received are `0..N-1`,
each once; the map has exactly the keys below `N`, each bound to a non-nil
pointer; `*m[i]` succeeds for every `i < N`; and `NewSipLogEntryResponse2`
returns, without a panic, a non-nil response. This holds whenever the
goroutines run and in whatever order their results arrive. -/
theorem C10_reassembly_is_safe (red : Redactor) (req : SipLogEntryRequest)
    (lag : Nat → Nat) (arrival : List channelResult → List channelResult)
    (h : Delivers red req lag arrival) :
    ((arrival (launch red lag 0 req.LogEntries)).map (fun r => r.ID)).Perm
      (List.range req.LogEntries.length) ∧
    (∀ k, (collect (arrival (launch red lag 0 req.LogEntries)) k).isSome = true
      ↔ k < req.LogEntries.length) ∧
    (∀ k, k < req.LogEntries.length →
      ∃ e, collect (arrival (launch red lag 0 req.LogEntries)) k = some (some e)) ∧
    (∀ i, i < req.LogEntries.length →
      ∃ e, mapIndex (collect (arrival (launch red lag 0 req.LogEntries))) i = some e) ∧
    ∃ resp, NewSipLogEntryResponse2 red req lag arrival = Except.ok (some resp) := by
  have hlen := observed_length lag req.LogEntries 0
  refine ⟨arrival_ids red req lag arrival h, ?_, ?_, ?_,
    ⟨_, NewSipLogEntryResponse2_eq red req lag arrival h⟩⟩
  · intro k
    constructor
    · intro hs
      by_contra hk
      rw [collect_ge red req lag arrival h k (Nat.le_of_not_lt hk)] at hs
      simp at hs
    · intro hk
      rw [collect_lt red req lag arrival h k (hlen ▸ hk)]
      rfl
  · intro k hk
    exact ⟨_, collect_lt red req lag arrival h k (hlen ▸ hk)⟩
  · intro i hi
    refine ⟨(observed lag 0 req.LogEntries)[i], ?_⟩
    unfold mapIndex
    rw [collect_lt red req lag arrival h i (hlen ▸ hi)]

/-- C10 on the example batch, the goroutines running after the loop and the
results arriving in reverse order: the map has the keys 0 and 1, both bound to
a non-nil pointer, and no key 2. -/
theorem C10_reassembly_is_safe_witness :
    Delivers constRedactor sampleReq oneLate List.reverse ∧
    collect (List.reverse (launch constRedactor oneLate 0 sampleReq.LogEntries)) 0
      = some (some noteEntry) ∧
    collect (List.reverse (launch constRedactor oneLate 0 sampleReq.LogEntries)) 1
      = some (some noteEntry) ∧
    collect (List.reverse (launch constRedactor oneLate 0 sampleReq.LogEntries)) 2 = none ∧
    ∃ resp, NewSipLogEntryResponse2 constRedactor sampleReq oneLate List.reverse
      = Except.ok (some resp) :=
  have hd : Delivers constRedactor sampleReq oneLate List.reverse := List.reverse_perm _
  ⟨hd, rfl, rfl, rfl,
   (C10_reassembly_is_safe constRedactor sampleReq oneLate List.reverse hd).2.2.2.2⟩

/-! ## Failures of the capability -/

/-- C8 (as stated it fails): with a capability that reports a failure on the
`sip` entry of the example batch, `NewSipLogEntryResponse1` still returns a
batch of two entries, `sipHandler` renders that batch with status 200, and
`NewSipLogEntryResponse2` returns a batch of two entries as well, whether its
goroutines run at once or after the loop. -/
theorem C8_failed_redaction_still_yields_batch :
    sipEntry ∈ sampleReq.LogEntries ∧ sipEntry.«Type» = sipTag ∧
    (failingRedactor.ProcessMessage sipEntry.SipLogMessage).failed = true ∧
    NewSipLogEntryResponse1 failingRedactor sampleReq =
      some { LogEntries := [sipEntry, { noteEntry with SipLogMessage := [] }],
             GlobalMetaInfo := sampleGlobal } ∧
    sipHandler failingRedactor (Except.ok sampleReq) =
      { status := 200,
        body := Rendered.batch
          { LogEntries := [sipEntry, { noteEntry with SipLogMessage := [] }],
            GlobalMetaInfo := sampleGlobal } } ∧
    NewSipLogEntryResponse2 failingRedactor sampleReq noLag id =
      Except.ok (some { LogEntries := [sipEntry, noteEntry],
                        GlobalMetaInfo := sampleGlobal }) ∧
    NewSipLogEntryResponse2 failingRedactor sampleReq oneLate id =
      Except.ok (some { LogEntries := [noteEntry, noteEntry],
                        GlobalMetaInfo := sampleGlobal }) := by
  refine ⟨by decide, by decide, by decide, by decide, by decide, rfl, rfl⟩

/-- C8 (amended): the dispatcher has no failure path. Whatever the capability
reports for the entries, `NewSipLogEntryResponse1` returns a non-nil response
with as many entries as the request and `sipHandler` renders it with status
200; `NewSipLogEntryResponse2` returns a non-nil response with as many
entries as the request. -/
theorem C8_dispatch_has_no_failure_path (red : Redactor) (req : SipLogEntryRequest)
    (lag : Nat → Nat) (arrival : List channelResult → List channelResult)
    (h : Delivers red req lag arrival) :
    (∃ r1, NewSipLogEntryResponse1 red req = some r1 ∧
      r1.LogEntries.length = req.LogEntries.length ∧
      sipHandler red (Except.ok req) = { status := 200, body := Rendered.batch r1 }) ∧
    (∃ r2, NewSipLogEntryResponse2 red req lag arrival = Except.ok (some r2) ∧
      r2.LogEntries.length = req.LogEntries.length) := by
  refine ⟨⟨_, NewSipLogEntryResponse1_eq red req, by simp, ?_⟩,
    ⟨_, NewSipLogEntryResponse2_eq red req lag arrival h, observed_length lag _ 0⟩⟩
  simp [sipHandler, NewSipLogEntryResponse1_eq]

/-- C8 (amended) on the example batch with the capability that always reports
a failure. -/
theorem C8_dispatch_has_no_failure_path_witness :
    Delivers failingRedactor sampleReq oneLate id ∧
    (∀ v, (failingRedactor.ProcessMessage v).failed = true) ∧
    (∃ r1, NewSipLogEntryResponse1 failingRedactor sampleReq = some r1 ∧
      r1.LogEntries.length = 2 ∧
      sipHandler failingRedactor (Except.ok sampleReq)
        = { status := 200, body := Rendered.batch r1 }) ∧
    (∃ r2, NewSipLogEntryResponse2 failingRedactor sampleReq oneLate id
        = Except.ok (some r2) ∧
      r2.LogEntries.length = 2) :=
  have hd : Delivers failingRedactor sampleReq oneLate id := List.Perm.refl _
  have h := C8_dispatch_has_no_failure_path failingRedactor sampleReq oneLate id hd
  ⟨hd, fun _ => rfl, h.1, h.2⟩

end LogsAnonymizer
